import Mathlib

/-!
Dcluster controller: the reconciliation loop.

A shallow embedding of `controllers/dcluster_controller.go`
(`DclusterReconciler.Reconcile` and the field-index extractor installed by
`DclusterReconciler.SetupWithManager`), followed by theorems about it.

Conventions.
* A Go `error` is an `Error` value (its message and whether
  `errors.IsNotFound` accepts it); the nil error is `none`.
* A Go pointer that may be nil is an `Option`; a nil slice is `none`.
* `time.Duration` is a number of nanoseconds.
* Calls made on collaborators (logger, store client, event recorder, the four
  action methods) are written, in order, to the `effects` list of the
  invocation's `Outcome`; the state of the outside world is passed explicitly.
-/

namespace Controllers

/-! ## Data model -/

/-- The value `types.NamespacedName`: the identity of a record. -/
structure NamespacedName where
  Namespace : String
  Name : String
deriving DecidableEq, Repr

/-- The text `fmt.Sprintf("%v", n)` gives for a namespaced name. -/
def NamespacedName.String (n : NamespacedName) : String :=
  n.Namespace ++ "/" ++ n.Name

/-- The value `ctrl.Request`. -/
structure Request where
  NamespacedName : NamespacedName
deriving DecidableEq, Repr

/-- One second as a `time.Duration` (nanoseconds). -/
def Second : Nat := 1000000000

/-- The value `ctrl.Result`; `Result.zero` is `ctrl.Result{}`. -/
structure Result where
  Requeue : Bool
  RequeueAfter : Nat
deriving DecidableEq, Repr

/-- The literal `ctrl.Result{}`. -/
def Result.zero : Result := ⟨false, 0⟩

/-- A Go `error` value: whether `errors.IsNotFound` holds of it, and its text. -/
structure Error where
  IsNotFound : Bool
  msg : String
deriving DecidableEq, Repr

/-- The error built by `fmt.Errorf(format, err)` for a format that ends in `%v`:
a fresh error, never a NotFound status, whose text is the format's text followed
by the text of `err`. -/
def Errorf (format : String) (err : Error) : Error :=
  ⟨false, format ++ err.msg⟩

/-- The text built by `fmt.Sprintf(format, err)` for a format that ends in `%s`. -/
def Sprintf (format : String) (err : Error) : String :=
  format ++ err.msg

/-- The part of the SDK's cluster description that the controller reads:
`ClusterID`, and the last observed state of the external cluster. -/
structure ClusterInfo where
  ClusterID : String
  State : Option String
deriving DecidableEq, Repr

/-- The status block of a `Dcluster`; `ClusterInfo` is a pointer. -/
structure DclusterStatus where
  ClusterInfo : Option ClusterInfo
deriving DecidableEq, Repr

/-- The record type `databricksv1alpha1.Dcluster`, with the object metadata the
controller depends on; `Status` is a pointer. -/
structure Dcluster where
  Namespace : String
  Name : String
  DeletionTimestamp : Option Nat
  Finalizers : List String
  Status : Option DclusterStatus
deriving DecidableEq, Repr

/-- The constant `corev1.EventTypeNormal`. -/
def EventTypeNormal : String := "Normal"

/-- The constant `corev1.EventTypeWarning`. -/
def EventTypeWarning : String := "Warning"

/-- The four action methods of the reconciler. -/
inductive Action where
  | handleFinalizer
  | addFinalizer
  | submit
  | refresh
deriving DecidableEq, Repr

/-- One call made by `Reconcile` on a collaborator. -/
inductive Effect where
  | log (msg : String)
  | get (key : NamespacedName)
  | call (a : Action) (inst : Dcluster)
  | event (object : Dcluster) (eventtype reason message : String)
deriving DecidableEq, Repr

/-- The declarations of package `api/v1alpha1` that `Reconcile` uses and whose
bodies are outside this file: the three predicates on a record and the name of
the controller's finalizer. -/
structure DclusterAPI where
  IsBeingDeleted : Dcluster → Bool
  HasFinalizer : Dcluster → String → Bool
  IsSubmitted : Dcluster → Bool
  DclusterFinalizerName : String

/-- The collaborators reached through the receiver `r`: the embedded store
client's `Get`, and the four action methods, defined in other files of the
package. An action receives the fetched record through a pointer, so it gives
back the record as it left it, its error and the new state of the world `σ`. -/
structure DclusterReconciler (σ : Type) where
  Get : NamespacedName → σ → Except Error Dcluster × σ
  handleFinalizer : Dcluster → σ → Option Error × Dcluster × σ
  addFinalizer : Dcluster → σ → Option Error × Dcluster × σ
  submit : Dcluster → σ → Option Error × Dcluster × σ
  refresh : Dcluster → σ → Option Error × Dcluster × σ

/-- What one invocation of `Reconcile` gives back: the pair `(ctrl.Result, error)`,
the calls it made on collaborators in order, and the state of the world. -/
structure Outcome (σ : Type) where
  result : Result
  err : Option Error
  effects : List Effect
  state : σ

/-! ## Reconcile -/

/-- `DclusterReconciler.Reconcile`, lines 56-112. The deferred "Finish" log
line is the last effect of every return path. -/
def Reconcile {σ : Type} (api : DclusterAPI) (r : DclusterReconciler σ)
    (req : Request) (s : σ) : Outcome σ :=
  let name := req.NamespacedName.String
  let start := Effect.log ("Starting reconcile loop for " ++ name)
  let finish := Effect.log ("Finish reconcile loop for " ++ name)
  let fetch := Effect.get req.NamespacedName
  match r.Get req.NamespacedName s with
  | (.error err, s1) =>
    if err.IsNotFound then
      ⟨Result.zero, none, [start, fetch, finish], s1⟩
    else
      ⟨Result.zero, some err, [start, fetch, finish], s1⟩
  | (.ok inst, s1) =>
    if api.IsBeingDeleted inst then
      let pre := [start, fetch, Effect.log ("HandleFinalizer for " ++ name),
        Effect.call Action.handleFinalizer inst]
      match r.handleFinalizer inst s1 with
      | (some err, inst1, s2) =>
        ⟨Result.zero, some (Errorf "error when handling finalizer: " err),
          pre ++ [Effect.event inst1 EventTypeWarning "deleting finalizer"
            (Sprintf "Failed to delete finalizer: " err), finish], s2⟩
      | (none, inst1, s2) =>
        ⟨Result.zero, none,
          pre ++ [Effect.event inst1 EventTypeNormal "Deleted"
            "Object finalizer is deleted", finish], s2⟩
    else if !api.HasFinalizer inst api.DclusterFinalizerName then
      let pre := [start, fetch, Effect.log ("AddFinalizer for " ++ name),
        Effect.call Action.addFinalizer inst]
      match r.addFinalizer inst s1 with
      | (some err, inst1, s2) =>
        ⟨Result.zero, some (Errorf "error when adding finalizer: " err),
          pre ++ [Effect.event inst1 EventTypeWarning "Adding finalizer"
            (Sprintf "Failed to add finalizer: " err), finish], s2⟩
      | (none, inst1, s2) =>
        ⟨Result.zero, none,
          pre ++ [Effect.event inst1 EventTypeNormal "Added"
            "Object finalizer is added", finish], s2⟩
    else if !api.IsSubmitted inst then
      let pre := [start, fetch, Effect.log ("Submit for " ++ name),
        Effect.call Action.submit inst]
      match r.submit inst s1 with
      | (some err, inst1, s2) =>
        ⟨Result.zero, some (Errorf "error when submitting cluster: " err),
          pre ++ [Effect.event inst1 EventTypeWarning "Submitting object"
            (Sprintf "Failed to submit object: " err), finish], s2⟩
      | (none, inst1, s2) =>
        ⟨Result.zero, none,
          pre ++ [Effect.event inst1 EventTypeNormal "Submitted"
            "Object is submitted", finish], s2⟩
    else if api.IsSubmitted inst then
      let pre := [start, fetch, Effect.log ("Refresh for " ++ name),
        Effect.call Action.refresh inst]
      match r.refresh inst s1 with
      | (some err, inst1, s2) =>
        ⟨Result.zero, some (Errorf "error when refreshing cluster: " err),
          pre ++ [Effect.event inst1 EventTypeWarning "Refreshing object"
            (Sprintf "Failed to refresh object: " err), finish], s2⟩
      | (none, inst1, s2) =>
        ⟨⟨false, 30 * Second⟩, none,
          pre ++ [Effect.event inst1 EventTypeNormal "Refreshed"
            "Object is refreshed", finish], s2⟩
    else
      ⟨⟨false, 30 * Second⟩, none, [start, fetch, finish], s1⟩

/-! ## SetupWithManager -/

/-- The constant `dclusterIndexKey`. -/
def dclusterIndexKey : String := ".status.cluster_info.cluster_id"

/-- The function literal handed to `IndexField` (lines 118-124). The argument is
the `*Dcluster` obtained from `rawObj`; the result is a `[]string`, `none` for
the nil slice. -/
def dclusterIndexFunc (dcluster : Option Dcluster) : Option (List String) :=
  match dcluster with
  | none => none
  | some d =>
    match d.Status with
    | none => none
    | some status =>
      match status.ClusterInfo with
      | none => none
      | some info => some [info.ClusterID]

/-- The number of elements of a `[]string`; a nil slice has none. -/
def sliceLen (xs : Option (List String)) : Nat :=
  match xs with
  | none => 0
  | some l => l.length

/-- The part of `ctrl.Manager` that `SetupWithManager` acts on: the field
indexes registered so far, the controllers built so far (by the kind they
watch), and the errors the manager will answer the two registrations with. -/
structure Manager where
  fieldIndexes : List (String × String × (Option Dcluster → Option (List String)))
  controllers : List String
  indexFieldErr : Option Error
  completeErr : Option Error

/-- `DclusterReconciler.SetupWithManager`, lines 117-130: registers the index
function for kind `Dcluster` under `dclusterIndexKey`, and returns early when
the indexer refuses; then builds the controller for kind `Dcluster`. -/
def SetupWithManager (mgr : Manager) : Option Error × Manager :=
  match mgr.indexFieldErr with
  | some err => (some err, mgr)
  | none =>
    let mgr1 : Manager :=
      ⟨mgr.fieldIndexes ++ [("Dcluster", dclusterIndexKey, dclusterIndexFunc)],
        mgr.controllers, mgr.indexFieldErr, mgr.completeErr⟩
    match mgr1.completeErr with
    | some err => (some err, mgr1)
    | none => (none, ⟨mgr1.fieldIndexes, mgr1.controllers ++ ["Dcluster"],
        mgr1.indexFieldErr, mgr1.completeErr⟩)

/-! ## Reading a trace -/

/-- The actions invoked in a trace, in order. -/
def actionsOf (effects : List Effect) : List Action :=
  effects.filterMap fun e =>
    match e with
    | Effect.call a _ => some a
    | _ => none

/-- The events emitted in a trace, in order, as
`(object, eventtype, reason, message)`. -/
def eventsOf (effects : List Effect) : List (Dcluster × String × String × String) :=
  effects.filterMap fun e =>
    match e with
    | Effect.event o t rsn m => some (o, t, rsn, m)
    | _ => none

/-- The action that the precedence order of `Reconcile` selects for a fetched
record: teardown, else guard attach, else submit, else refresh. -/
def selectedAction (api : DclusterAPI) (inst : Dcluster) : Action :=
  if api.IsBeingDeleted inst then Action.handleFinalizer
  else if !api.HasFinalizer inst api.DclusterFinalizerName then Action.addFinalizer
  else if !api.IsSubmitted inst then Action.submit
  else Action.refresh

/-- Runs the given action of the reconciler. -/
def runAction {σ : Type} (r : DclusterReconciler σ) (a : Action) :
    Dcluster → σ → Option Error × Dcluster × σ :=
  match a with
  | Action.handleFinalizer => r.handleFinalizer
  | Action.addFinalizer => r.addFinalizer
  | Action.submit => r.submit
  | Action.refresh => r.refresh

/-! ## The collaborators in the words of the specification

The bodies of the three record predicates and of the four action methods are
in files of the package other than `dcluster_controller.go`; the definitions of
this section follow sections 3, 4 and 6 of the specification. They act on a
world holding the store's copy of one record and the list of calls made so far
on the store and on the external cluster API. -/

/-- Modelled from the spec: `Dcluster.IsBeingDeleted` (package `api/v1alpha1`),
the record field `deletionRequested`. -/
def IsBeingDeleted (d : Dcluster) : Bool :=
  d.DeletionTimestamp.isSome

/-- Modelled from the spec: `Dcluster.HasFinalizer` (package `api/v1alpha1`),
the record field `guardPresent` for the guard marker `name`. -/
def HasFinalizer (d : Dcluster) (name : String) : Bool :=
  decide (name ∈ d.Finalizers)

/-- Modelled from the spec: the record field `status.externalID`, absent when a
pointer on the way to `ClusterID` is nil (the nil tests of lines 120-123). -/
def externalID (d : Dcluster) : Option String :=
  match d.Status with
  | none => none
  | some status =>
    match status.ClusterInfo with
    | none => none
    | some info => some info.ClusterID

/-- Modelled from the spec: `Dcluster.IsSubmitted` (package `api/v1alpha1`):
`status.externalID` is present. -/
def IsSubmitted (d : Dcluster) : Bool :=
  (externalID d).isSome

/-- Modelled from the spec: the declarations of package `api/v1alpha1` used by
`Reconcile`, for a guard marker named `guard` (the constant
`DclusterFinalizerName`, whose value is declared outside this file). -/
def specAPI (guard : String) : DclusterAPI :=
  ⟨IsBeingDeleted, HasFinalizer, IsSubmitted, guard⟩

/-- The answer of the external API to `delete(externalID)` (section 6 of the
specification). -/
inductive DeleteReply where
  | ack
  | notFound
  | failed (err : Error)
deriving DecidableEq, Repr

/-- Whether a delete answer counts as a confirmed teardown: success or NotFound. -/
def DeleteReply.confirmed (reply : DeleteReply) : Bool :=
  match reply with
  | DeleteReply.ack => true
  | DeleteReply.notFound => true
  | DeleteReply.failed _ => false

/-- One call on the store or on the external cluster API, with its answer. -/
inductive Interaction where
  | create (reply : Except Error String)
  | getStatus (id : String) (reply : Except Error String)
  | delete (id : String) (reply : DeleteReply)
  | update (record : Dcluster) (reply : Option Error)

/-- The answers the collaborators give during one invocation: a failure of the
store's `get` (if any), and the answers to `create`, `getStatus`, `delete` and
to the store's `update`. -/
structure Replies where
  get : Option Error
  create : Except Error String
  getStatus : Except Error String
  delete : DeleteReply
  update : Option Error

/-- The world outside the engine, for one identity: the store's copy of the
record (`none` when the store has no such record) and the calls made so far. -/
structure World where
  store : Option Dcluster
  history : List Interaction

/-- Modelled from the spec: the store's `get(identity)` (section 6): the record,
or NotFound when the store holds no record of that identity. -/
def storeGet (o : Replies) (key : NamespacedName) (w : World) :
    Except Error Dcluster × World :=
  match o.get with
  | some err => (Except.error err, w)
  | none =>
    match w.store with
    | none => (Except.error ⟨true, "not found"⟩, w)
    | some d =>
      if d.Namespace = key.Namespace ∧ d.Name = key.Name then (Except.ok d, w)
      else (Except.error ⟨true, "not found"⟩, w)

/-- Modelled from the spec: the store's `update(Record)` (sections 3 and 6). A
refused update leaves the store as it was. An accepted one replaces the record;
a record whose deletion is requested and that carries no guard is then removed
physically. -/
def storeUpdate (guard : String) (o : Replies) (d : Dcluster) (w : World) :
    Option Error × World :=
  match o.update with
  | some err => (some err, ⟨w.store, w.history ++ [Interaction.update d (some err)]⟩)
  | none =>
    (none, ⟨if IsBeingDeleted d && !HasFinalizer d guard then none else some d,
      w.history ++ [Interaction.update d none]⟩)

/-- Modelled from the spec: attaching the guard marker to a record. -/
def attachGuard (guard : String) (d : Dcluster) : Dcluster :=
  ⟨d.Namespace, d.Name, d.DeletionTimestamp, d.Finalizers ++ [guard], d.Status⟩

/-- Modelled from the spec: removing the guard marker from a record. -/
def removeGuard (guard : String) (d : Dcluster) : Dcluster :=
  ⟨d.Namespace, d.Name, d.DeletionTimestamp,
    d.Finalizers.filter (fun f => decide (f ≠ guard)), d.Status⟩

/-- Modelled from the spec: `addFinalizer` (section 4.1, state Unguarded):
attach the guard, persist, return. -/
def specAddFinalizer (guard : String) (o : Replies) (inst : Dcluster) (w : World) :
    Option Error × Dcluster × World :=
  let inst1 := attachGuard guard inst
  match storeUpdate guard o inst1 w with
  | (err, w1) => (err, inst1, w1)

/-- Modelled from the spec: `submit` (section 4.2): call `create(spec)`; a
failed call is surfaced with nothing written; on success the external id is
put in the record's status and the record is written back, a refused write
being surfaced as the error. -/
def specSubmit (guard : String) (o : Replies) (inst : Dcluster) (w : World) :
    Option Error × Dcluster × World :=
  let w1 : World := ⟨w.store, w.history ++ [Interaction.create o.create]⟩
  match o.create with
  | Except.error err => (some err, inst, w1)
  | Except.ok id =>
    let inst1 : Dcluster :=
      ⟨inst.Namespace, inst.Name, inst.DeletionTimestamp, inst.Finalizers,
        some ⟨some ⟨id, none⟩⟩⟩
    match storeUpdate guard o inst1 w1 with
    | (err, w2) => (err, inst1, w2)

/-- Modelled from the spec: `refresh` (section 4.4): call `getStatus(externalID)`;
a failed call is surfaced with nothing written; on success the snapshot is
written to `status.externalState` and the record is written back. A record
without external id (not reached from `Reconcile`) is left alone. -/
def specRefresh (guard : String) (o : Replies) (inst : Dcluster) (w : World) :
    Option Error × Dcluster × World :=
  match externalID inst with
  | none => (none, inst, w)
  | some id =>
    let w1 : World := ⟨w.store, w.history ++ [Interaction.getStatus id o.getStatus]⟩
    match o.getStatus with
    | Except.error err => (some err, inst, w1)
    | Except.ok snapshot =>
      let inst1 : Dcluster :=
        ⟨inst.Namespace, inst.Name, inst.DeletionTimestamp, inst.Finalizers,
          some ⟨some ⟨id, some snapshot⟩⟩⟩
      match storeUpdate guard o inst1 w1 with
      | (err, w2) => (err, inst1, w2)

/-- Modelled from the spec: `handleFinalizer` (section 4.3). Without external
id the teardown is a no-op and the guard is removed directly. Otherwise
`delete(externalID)` is called, NotFound counting as success; on success the
guard is removed and the record persisted; on failure the error is returned
and the record is not touched. -/
def specHandleFinalizer (guard : String) (o : Replies) (inst : Dcluster) (w : World) :
    Option Error × Dcluster × World :=
  match externalID inst with
  | none =>
    let inst1 := removeGuard guard inst
    match storeUpdate guard o inst1 w with
    | (err, w1) => (err, inst1, w1)
  | some id =>
    let w1 : World := ⟨w.store, w.history ++ [Interaction.delete id o.delete]⟩
    match o.delete with
    | DeleteReply.failed err => (some err, inst, w1)
    | DeleteReply.ack =>
      let inst1 := removeGuard guard inst
      match storeUpdate guard o inst1 w1 with
      | (err, w2) => (err, inst1, w2)
    | DeleteReply.notFound =>
      let inst1 := removeGuard guard inst
      match storeUpdate guard o inst1 w1 with
      | (err, w2) => (err, inst1, w2)

/-- Modelled from the spec: the reconciler's collaborators over the world, for
the answers `o` of one invocation. -/
def specReconciler (guard : String) (o : Replies) : DclusterReconciler World :=
  ⟨storeGet o, specHandleFinalizer guard o, specAddFinalizer guard o,
    specSubmit guard o, specRefresh guard o⟩

/-- What happens to one identity between and during invocations: an invocation
of `Reconcile` with the collaborators' answers, or a user asking the store to
delete the record. -/
inductive Step where
  | reconcile (req : Request) (o : Replies)
  | requestDeletion (ts : Nat)

/-- Modelled from the spec: a deletion request (section 3): the store sets
`deletionRequested`, and removes the record physically unless the guard marker
is present. -/
def requestDeletion (guard : String) (ts : Nat) (w : World) : World :=
  match w.store with
  | none => w
  | some d =>
    if HasFinalizer d guard then
      ⟨some ⟨d.Namespace, d.Name,
        some (match d.DeletionTimestamp with | some t => t | none => ts),
        d.Finalizers, d.Status⟩, w.history⟩
    else ⟨none, w.history⟩

/-- Runs a sequence of steps from a world; gives the trace of every invocation
of `Reconcile`, in order, and the final world. -/
def run (guard : String) : World → List Step → List (List Effect) × World
  | w, [] => ([], w)
  | w, Step.reconcile req o :: rest =>
    let out := Reconcile (specAPI guard) (specReconciler guard o) req w
    let tail := run guard out.state rest
    (out.effects :: tail.1, tail.2)
  | w, Step.requestDeletion ts :: rest =>
    run guard (requestDeletion guard ts w) rest

/-- Whether the store holds a record carrying the guard marker. -/
def World.guarded (guard : String) (w : World) : Bool :=
  match w.store with
  | none => false
  | some d => HasFinalizer d guard

end Controllers

namespace Controllers

/-! ## Collaborators with fixed answers, and sample inputs -/

/-- A reconciler over a world without state: `Get` answers `get`, and each
action answers `answer` of itself and leaves the record as it was. -/
def fixedReconciler (get : Except Error Dcluster) (answer : Action → Option Error) :
    DclusterReconciler Unit :=
  ⟨fun _ u => (get, u),
    fun d u => (answer Action.handleFinalizer, d, u),
    fun d u => (answer Action.addFinalizer, d, u),
    fun d u => (answer Action.submit, d, u),
    fun d u => (answer Action.refresh, d, u)⟩

/-- Every action succeeds. -/
def allSucceed : Action → Option Error := fun _ => none

/-- Every action fails with the error `boom`. -/
def allFail : Action → Option Error := fun _ => some ⟨false, "boom"⟩

/-- The request for the record `ns/c1`. -/
def sampleRequest : Request := ⟨⟨"ns", "c1"⟩⟩

/-- A record just created by a user: no guard, no external id, not deleted. -/
def freshRecord : Dcluster := ⟨"ns", "c1", none, [], none⟩

/-- A record with the guard `g` and no external id. -/
def guardedRecord : Dcluster := ⟨"ns", "c1", none, ["g"], none⟩

/-- A record with the guard `g` and the external id `id-1`. -/
def submittedRecord : Dcluster :=
  ⟨"ns", "c1", none, ["g"], some ⟨some ⟨"id-1", none⟩⟩⟩

/-- A record with the guard `g` and the external id `id-1`, whose deletion was
requested at time 5. -/
def deletingRecord : Dcluster :=
  ⟨"ns", "c1", some 5, ["g"], some ⟨some ⟨"id-1", none⟩⟩⟩

/-- The world whose store holds `freshRecord`, before any call. -/
def freshWorld : World := ⟨some freshRecord, []⟩

/-- The world whose store holds `deletingRecord`, before any call. -/
def deletingWorld : World := ⟨some deletingRecord, []⟩

/-- Answers of collaborators that all succeed. -/
def okReplies : Replies :=
  ⟨none, Except.ok "id-1", Except.ok "RUNNING", DeleteReply.ack, none⟩

/-- Answers of collaborators where the external delete fails. -/
def deleteFails : Replies :=
  ⟨none, Except.ok "id-1", Except.ok "RUNNING", DeleteReply.failed ⟨false, "throttled"⟩, none⟩

/-- The scenario of section 8 of the specification: three invocations, a
deletion request, then two more invocations, every collaborator succeeding. -/
def lifecycle : List Step :=
  [Step.reconcile sampleRequest okReplies, Step.reconcile sampleRequest okReplies,
    Step.reconcile sampleRequest okReplies, Step.requestDeletion 5,
    Step.reconcile sampleRequest okReplies, Step.reconcile sampleRequest okReplies]

/-- Two invocations of `Reconcile` for `ns/c1`, every collaborator succeeding. -/
def twoInvocations : List Step :=
  [Step.reconcile sampleRequest okReplies, Step.reconcile sampleRequest okReplies]

end Controllers

namespace Controllers

/-! ## Lemmas on one invocation -/

/-! The ten return paths of `Reconcile`, one equation each. -/

section Paths

variable {σ : Type} (api : DclusterAPI) (r : DclusterReconciler σ) (req : Request) (s : σ)

theorem Reconcile_get_error (err : Error) (s1 : σ)
    (hget : r.Get req.NamespacedName s = (Except.error err, s1)) :
    Reconcile api r req s =
      ⟨Result.zero, if err.IsNotFound then none else some err,
        [Effect.log ("Starting reconcile loop for " ++ req.NamespacedName.String),
          Effect.get req.NamespacedName,
          Effect.log ("Finish reconcile loop for " ++ req.NamespacedName.String)], s1⟩ := by
  cases h : err.IsNotFound <;> simp [Reconcile, hget, h]

theorem Reconcile_handleFinalizer (inst : Dcluster) (s1 : σ)
    (hget : r.Get req.NamespacedName s = (Except.ok inst, s1))
    (hd : api.IsBeingDeleted inst = true) :
    Reconcile api r req s =
      match r.handleFinalizer inst s1 with
      | (some err, inst1, s2) =>
        ⟨Result.zero, some (Errorf "error when handling finalizer: " err),
          [Effect.log ("Starting reconcile loop for " ++ req.NamespacedName.String),
            Effect.get req.NamespacedName,
            Effect.log ("HandleFinalizer for " ++ req.NamespacedName.String),
            Effect.call Action.handleFinalizer inst,
            Effect.event inst1 EventTypeWarning "deleting finalizer"
              (Sprintf "Failed to delete finalizer: " err),
            Effect.log ("Finish reconcile loop for " ++ req.NamespacedName.String)], s2⟩
      | (none, inst1, s2) =>
        ⟨Result.zero, none,
          [Effect.log ("Starting reconcile loop for " ++ req.NamespacedName.String),
            Effect.get req.NamespacedName,
            Effect.log ("HandleFinalizer for " ++ req.NamespacedName.String),
            Effect.call Action.handleFinalizer inst,
            Effect.event inst1 EventTypeNormal "Deleted" "Object finalizer is deleted",
            Effect.log ("Finish reconcile loop for " ++ req.NamespacedName.String)], s2⟩ := by
  rcases ha : r.handleFinalizer inst s1 with ⟨_ | e, i1, s2⟩ <;>
    simp [Reconcile, hget, hd, ha]

theorem Reconcile_addFinalizer (inst : Dcluster) (s1 : σ)
    (hget : r.Get req.NamespacedName s = (Except.ok inst, s1))
    (hd : api.IsBeingDeleted inst = false)
    (hf : api.HasFinalizer inst api.DclusterFinalizerName = false) :
    Reconcile api r req s =
      match r.addFinalizer inst s1 with
      | (some err, inst1, s2) =>
        ⟨Result.zero, some (Errorf "error when adding finalizer: " err),
          [Effect.log ("Starting reconcile loop for " ++ req.NamespacedName.String),
            Effect.get req.NamespacedName,
            Effect.log ("AddFinalizer for " ++ req.NamespacedName.String),
            Effect.call Action.addFinalizer inst,
            Effect.event inst1 EventTypeWarning "Adding finalizer"
              (Sprintf "Failed to add finalizer: " err),
            Effect.log ("Finish reconcile loop for " ++ req.NamespacedName.String)], s2⟩
      | (none, inst1, s2) =>
        ⟨Result.zero, none,
          [Effect.log ("Starting reconcile loop for " ++ req.NamespacedName.String),
            Effect.get req.NamespacedName,
            Effect.log ("AddFinalizer for " ++ req.NamespacedName.String),
            Effect.call Action.addFinalizer inst,
            Effect.event inst1 EventTypeNormal "Added" "Object finalizer is added",
            Effect.log ("Finish reconcile loop for " ++ req.NamespacedName.String)], s2⟩ := by
  rcases ha : r.addFinalizer inst s1 with ⟨_ | e, i1, s2⟩ <;>
    simp [Reconcile, hget, hd, hf, ha]

theorem Reconcile_submit (inst : Dcluster) (s1 : σ)
    (hget : r.Get req.NamespacedName s = (Except.ok inst, s1))
    (hd : api.IsBeingDeleted inst = false)
    (hf : api.HasFinalizer inst api.DclusterFinalizerName = true)
    (hs : api.IsSubmitted inst = false) :
    Reconcile api r req s =
      match r.submit inst s1 with
      | (some err, inst1, s2) =>
        ⟨Result.zero, some (Errorf "error when submitting cluster: " err),
          [Effect.log ("Starting reconcile loop for " ++ req.NamespacedName.String),
            Effect.get req.NamespacedName,
            Effect.log ("Submit for " ++ req.NamespacedName.String),
            Effect.call Action.submit inst,
            Effect.event inst1 EventTypeWarning "Submitting object"
              (Sprintf "Failed to submit object: " err),
            Effect.log ("Finish reconcile loop for " ++ req.NamespacedName.String)], s2⟩
      | (none, inst1, s2) =>
        ⟨Result.zero, none,
          [Effect.log ("Starting reconcile loop for " ++ req.NamespacedName.String),
            Effect.get req.NamespacedName,
            Effect.log ("Submit for " ++ req.NamespacedName.String),
            Effect.call Action.submit inst,
            Effect.event inst1 EventTypeNormal "Submitted" "Object is submitted",
            Effect.log ("Finish reconcile loop for " ++ req.NamespacedName.String)], s2⟩ := by
  rcases ha : r.submit inst s1 with ⟨_ | e, i1, s2⟩ <;>
    simp [Reconcile, hget, hd, hf, hs, ha]

theorem Reconcile_refresh (inst : Dcluster) (s1 : σ)
    (hget : r.Get req.NamespacedName s = (Except.ok inst, s1))
    (hd : api.IsBeingDeleted inst = false)
    (hf : api.HasFinalizer inst api.DclusterFinalizerName = true)
    (hs : api.IsSubmitted inst = true) :
    Reconcile api r req s =
      match r.refresh inst s1 with
      | (some err, inst1, s2) =>
        ⟨Result.zero, some (Errorf "error when refreshing cluster: " err),
          [Effect.log ("Starting reconcile loop for " ++ req.NamespacedName.String),
            Effect.get req.NamespacedName,
            Effect.log ("Refresh for " ++ req.NamespacedName.String),
            Effect.call Action.refresh inst,
            Effect.event inst1 EventTypeWarning "Refreshing object"
              (Sprintf "Failed to refresh object: " err),
            Effect.log ("Finish reconcile loop for " ++ req.NamespacedName.String)], s2⟩
      | (none, inst1, s2) =>
        ⟨⟨false, 30 * Second⟩, none,
          [Effect.log ("Starting reconcile loop for " ++ req.NamespacedName.String),
            Effect.get req.NamespacedName,
            Effect.log ("Refresh for " ++ req.NamespacedName.String),
            Effect.call Action.refresh inst,
            Effect.event inst1 EventTypeNormal "Refreshed" "Object is refreshed",
            Effect.log ("Finish reconcile loop for " ++ req.NamespacedName.String)], s2⟩ := by
  rcases ha : r.refresh inst s1 with ⟨_ | e, i1, s2⟩ <;>
    simp [Reconcile, hget, hd, hf, hs, ha]

end Paths

/-- The shape every invocation on a fetched record has: the selected action
`a` ran on the record and left `(e, inst1, s2)`; the error, the result, the
actions and the events follow from `a` and `e`. -/
theorem Reconcile_found {σ : Type} (api : DclusterAPI) (r : DclusterReconciler σ)
    (req : Request) (s : σ) (inst : Dcluster) (s1 : σ)
    (hget : r.Get req.NamespacedName s = (Except.ok inst, s1)) :
    ∃ (e : Option Error) (inst1 : Dcluster) (s2 : σ) (pre rsn text : String),
      runAction r (selectedAction api inst) inst s1 = (e, inst1, s2) ∧
      (Reconcile api r req s).state = s2 ∧
      actionsOf (Reconcile api r req s).effects = [selectedAction api inst] ∧
      Effect.call (selectedAction api inst) inst ∈ (Reconcile api r req s).effects ∧
      (∀ err, e = some err →
        (Reconcile api r req s).err = some (Errorf pre err) ∧
        (Reconcile api r req s).result = Result.zero ∧
        eventsOf (Reconcile api r req s).effects =
          [(inst1, EventTypeWarning, rsn, text ++ err.msg)]) ∧
      (e = none →
        (Reconcile api r req s).err = none ∧
        (Reconcile api r req s).result =
          (if selectedAction api inst = Action.refresh then ⟨false, 30 * Second⟩
            else Result.zero) ∧
        ∃ rsn1 text1, eventsOf (Reconcile api r req s).effects =
          [(inst1, EventTypeNormal, rsn1, text1)]) := by
  cases hd : api.IsBeingDeleted inst
  · cases hf : api.HasFinalizer inst api.DclusterFinalizerName
    · rcases ha : r.addFinalizer inst s1 with ⟨_ | e, i1, s2⟩
      · refine ⟨none, i1, s2, "", "", "", ?_⟩
        simp [Reconcile_addFinalizer api r req s inst s1 hget hd hf, ha, selectedAction,
          runAction, hd, hf, actionsOf, eventsOf]
      · refine ⟨some e, i1, s2, "error when adding finalizer: ", "Adding finalizer",
          "Failed to add finalizer: ", ?_⟩
        simp [Reconcile_addFinalizer api r req s inst s1 hget hd hf, ha, selectedAction,
          runAction, hd, hf, actionsOf, eventsOf, Sprintf]
    · cases hs : api.IsSubmitted inst
      · rcases ha : r.submit inst s1 with ⟨_ | e, i1, s2⟩
        · refine ⟨none, i1, s2, "", "", "", ?_⟩
          simp [Reconcile_submit api r req s inst s1 hget hd hf hs, ha, selectedAction,
            runAction, hd, hf, hs, actionsOf, eventsOf]
        · refine ⟨some e, i1, s2, "error when submitting cluster: ", "Submitting object",
            "Failed to submit object: ", ?_⟩
          simp [Reconcile_submit api r req s inst s1 hget hd hf hs, ha, selectedAction,
            runAction, hd, hf, hs, actionsOf, eventsOf, Sprintf]
      · rcases ha : r.refresh inst s1 with ⟨_ | e, i1, s2⟩
        · refine ⟨none, i1, s2, "", "", "", ?_⟩
          simp [Reconcile_refresh api r req s inst s1 hget hd hf hs, ha, selectedAction,
            runAction, hd, hf, hs, actionsOf, eventsOf]
        · refine ⟨some e, i1, s2, "error when refreshing cluster: ", "Refreshing object",
            "Failed to refresh object: ", ?_⟩
          simp [Reconcile_refresh api r req s inst s1 hget hd hf hs, ha, selectedAction,
            runAction, hd, hf, hs, actionsOf, eventsOf, Sprintf]
  · rcases ha : r.handleFinalizer inst s1 with ⟨_ | e, i1, s2⟩
    · refine ⟨none, i1, s2, "", "", "", ?_⟩
      simp [Reconcile_handleFinalizer api r req s inst s1 hget hd, ha, selectedAction,
        runAction, hd, actionsOf, eventsOf]
    · refine ⟨some e, i1, s2, "error when handling finalizer: ", "deleting finalizer",
        "Failed to delete finalizer: ", ?_⟩
      simp [Reconcile_handleFinalizer api r req s inst s1 hget hd, ha, selectedAction,
        runAction, hd, actionsOf, eventsOf, Sprintf]

/-! ## One invocation of `Reconcile` -/

/-- C1. For a record that `Reconcile` fetched, the actions invoked are exactly
one, the one the precedence order picks from the record alone: teardown when
`IsBeingDeleted`, else guard attach when the finalizer is absent, else submit
when `IsSubmitted` is false, else refresh; it is invoked on the fetched record. -/
theorem reconcile_invokes_exactly_one_action {σ : Type} (api : DclusterAPI)
    (r : DclusterReconciler σ) (req : Request) (s : σ) (inst : Dcluster) (s1 : σ)
    (hget : r.Get req.NamespacedName s = (Except.ok inst, s1)) :
    (api.IsBeingDeleted inst = true →
      actionsOf (Reconcile api r req s).effects = [Action.handleFinalizer]) ∧
    (api.IsBeingDeleted inst = false →
      api.HasFinalizer inst api.DclusterFinalizerName = false →
      actionsOf (Reconcile api r req s).effects = [Action.addFinalizer]) ∧
    (api.IsBeingDeleted inst = false →
      api.HasFinalizer inst api.DclusterFinalizerName = true →
      api.IsSubmitted inst = false →
      actionsOf (Reconcile api r req s).effects = [Action.submit]) ∧
    (api.IsBeingDeleted inst = false →
      api.HasFinalizer inst api.DclusterFinalizerName = true →
      api.IsSubmitted inst = true →
      actionsOf (Reconcile api r req s).effects = [Action.refresh]) ∧
    (actionsOf (Reconcile api r req s).effects).length = 1 ∧
    (∀ a, a ∈ actionsOf (Reconcile api r req s).effects →
      Effect.call a inst ∈ (Reconcile api r req s).effects) := by
  obtain ⟨e, i1, s2, pre, rsn, text, -, -, hact, hmem, -, -⟩ :=
    Reconcile_found api r req s inst s1 hget
  refine ⟨?_, ?_, ?_, ?_, ?_, ?_⟩
  · intro h1
    rw [hact]; simp [selectedAction, h1]
  · intro h1 h2
    rw [hact]; simp [selectedAction, h1, h2]
  · intro h1 h2 h3
    rw [hact]; simp [selectedAction, h1, h2, h3]
  · intro h1 h2 h3
    rw [hact]; simp [selectedAction, h1, h2, h3]
  · rw [hact]; rfl
  · intro a ha
    rw [hact] at ha
    simp only [List.mem_singleton] at ha
    rw [ha]; exact hmem

/-- Witness of C1: a fetched record with the guard and no external id. -/
theorem reconcile_invokes_exactly_one_action_witness :
    actionsOf (Reconcile (specAPI "g") (fixedReconciler (Except.ok guardedRecord) allSucceed)
      sampleRequest ()).effects = [Action.submit] :=
  (reconcile_invokes_exactly_one_action (specAPI "g")
    (fixedReconciler (Except.ok guardedRecord) allSucceed) sampleRequest ()
    guardedRecord () rfl).2.2.1 (by decide) (by decide) (by decide)

/-- C3. `submit` is invoked in an invocation exactly when the record fetched
in that invocation is not being deleted, carries the finalizer and is not
submitted; so never for a record being deleted, whether or not it has an
external id, and never for a record already submitted. -/
theorem reconcile_submit_iff {σ : Type} (api : DclusterAPI)
    (r : DclusterReconciler σ) (req : Request) (s : σ) :
    Action.submit ∈ actionsOf (Reconcile api r req s).effects ↔
      ∃ inst s1, r.Get req.NamespacedName s = (Except.ok inst, s1) ∧
        api.IsBeingDeleted inst = false ∧
        api.HasFinalizer inst api.DclusterFinalizerName = true ∧
        api.IsSubmitted inst = false := by
  rcases hget : r.Get req.NamespacedName s with ⟨e | inst, s1⟩
  · rw [Reconcile_get_error api r req s e s1 hget]
    simp [actionsOf]
  · obtain ⟨e, i1, s2, pre, rsn, text, -, -, hact, -, -, -⟩ :=
      Reconcile_found api r req s inst s1 hget
    rw [hact]
    cases hd : api.IsBeingDeleted inst <;>
      cases hf : api.HasFinalizer inst api.DclusterFinalizerName <;>
      cases hs : api.IsSubmitted inst <;>
      simp [selectedAction, hd, hf, hs]

/-- C5. `Reconcile` returns a non-nil error exactly when the fetch fails with
an error other than NotFound, or the action selected for the fetched record
returns an error. In each such case the result is `ctrl.Result{}`, and no
action follows: none was invoked after a failed fetch, and after a failed
action the trace holds that action alone and the world is as it left it. -/
theorem reconcile_error_iff {σ : Type} (api : DclusterAPI)
    (r : DclusterReconciler σ) (req : Request) (s : σ) :
    ((Reconcile api r req s).err ≠ none ↔
      ((∃ e s1, r.Get req.NamespacedName s = (Except.error e, s1) ∧ e.IsNotFound = false) ∨
       (∃ inst s1, r.Get req.NamespacedName s = (Except.ok inst, s1) ∧
          (runAction r (selectedAction api inst) inst s1).1 ≠ none))) ∧
    ((Reconcile api r req s).err ≠ none →
      (Reconcile api r req s).result = Result.zero ∧
      ((∃ e s1, r.Get req.NamespacedName s = (Except.error e, s1) ∧
          (Reconcile api r req s).err = some e ∧
          actionsOf (Reconcile api r req s).effects = []) ∨
       (∃ inst s1, r.Get req.NamespacedName s = (Except.ok inst, s1) ∧
          actionsOf (Reconcile api r req s).effects = [selectedAction api inst] ∧
          (Reconcile api r req s).state =
            (runAction r (selectedAction api inst) inst s1).2.2))) := by
  rcases hget : r.Get req.NamespacedName s with ⟨e | inst, s1⟩
  · rw [Reconcile_get_error api r req s e s1 hget]
    cases h : e.IsNotFound <;> simp [actionsOf, h]
  · obtain ⟨e, i1, s2, pre, rsn, text, hrun, hst, hact, -, herr, hok⟩ :=
      Reconcile_found api r req s inst s1 hget
    cases e with
    | none =>
      obtain ⟨h1, -, -⟩ := hok rfl
      simp [h1, hrun]
    | some err =>
      obtain ⟨h1, h2, -⟩ := herr err rfl
      refine ⟨⟨fun _ => Or.inr ⟨inst, s1, rfl, by simp [hrun]⟩, fun _ => by simp [h1]⟩,
        fun _ => ⟨h2, Or.inr ⟨inst, s1, rfl, hact, by simp [hst, hrun]⟩⟩⟩

/-- C6. When `Get` fails with NotFound, `Reconcile` invokes no action, emits
no event, and returns `ctrl.Result{}` with a nil error. -/
theorem reconcile_not_found {σ : Type} (api : DclusterAPI)
    (r : DclusterReconciler σ) (req : Request) (s : σ) (e : Error) (s1 : σ)
    (hget : r.Get req.NamespacedName s = (Except.error e, s1))
    (hnf : e.IsNotFound = true) :
    actionsOf (Reconcile api r req s).effects = [] ∧
    eventsOf (Reconcile api r req s).effects = [] ∧
    (Reconcile api r req s).result = Result.zero ∧
    (Reconcile api r req s).err = none ∧
    (Reconcile api r req s).state = s1 := by
  rw [Reconcile_get_error api r req s e s1 hget]
  simp [actionsOf, eventsOf, hnf]

/-- Witness of C6: the store answers NotFound. -/
theorem reconcile_not_found_witness :
    actionsOf (Reconcile (specAPI "g")
      (fixedReconciler (Except.error ⟨true, "not found"⟩) allFail) sampleRequest ()).effects = [] ∧
    (Reconcile (specAPI "g")
      (fixedReconciler (Except.error ⟨true, "not found"⟩) allFail) sampleRequest ()).result
        = Result.zero ∧
    (Reconcile (specAPI "g")
      (fixedReconciler (Except.error ⟨true, "not found"⟩) allFail) sampleRequest ()).err = none :=
  have h := reconcile_not_found (specAPI "g")
    (fixedReconciler (Except.error ⟨true, "not found"⟩) allFail) sampleRequest ()
    ⟨true, "not found"⟩ () rfl rfl
  ⟨h.1, h.2.2.1, h.2.2.2.1⟩

/-- C7, as the claim states it, fails: a guard attach, a submit and a teardown
that succeed each return `ctrl.Result{}`, whose `RequeueAfter` is zero. -/
theorem reconcile_success_without_requeue :
    ((Reconcile (specAPI "g") (fixedReconciler (Except.ok freshRecord) allSucceed)
        sampleRequest ()).err = none ∧
      actionsOf (Reconcile (specAPI "g") (fixedReconciler (Except.ok freshRecord) allSucceed)
        sampleRequest ()).effects = [Action.addFinalizer] ∧
      (Reconcile (specAPI "g") (fixedReconciler (Except.ok freshRecord) allSucceed)
        sampleRequest ()).result.RequeueAfter = 0) ∧
    ((Reconcile (specAPI "g") (fixedReconciler (Except.ok guardedRecord) allSucceed)
        sampleRequest ()).err = none ∧
      actionsOf (Reconcile (specAPI "g") (fixedReconciler (Except.ok guardedRecord) allSucceed)
        sampleRequest ()).effects = [Action.submit] ∧
      (Reconcile (specAPI "g") (fixedReconciler (Except.ok guardedRecord) allSucceed)
        sampleRequest ()).result.RequeueAfter = 0) ∧
    ((Reconcile (specAPI "g") (fixedReconciler (Except.ok deletingRecord) allSucceed)
        sampleRequest ()).err = none ∧
      actionsOf (Reconcile (specAPI "g") (fixedReconciler (Except.ok deletingRecord) allSucceed)
        sampleRequest ()).effects = [Action.handleFinalizer] ∧
      (Reconcile (specAPI "g") (fixedReconciler (Except.ok deletingRecord) allSucceed)
        sampleRequest ()).result.RequeueAfter = 0) := by
  refine ⟨⟨?_, ?_, ?_⟩, ⟨?_, ?_, ?_⟩, ⟨?_, ?_, ?_⟩⟩ <;> decide

/-- C7, amended. Every branch that performs a side effect and succeeds returns
a nil error; the refresh branch returns `RequeueAfter` of 30 seconds, and the
guard attach, submit and teardown branches return `ctrl.Result{}`. -/
theorem reconcile_success_result {σ : Type} (api : DclusterAPI)
    (r : DclusterReconciler σ) (req : Request) (s : σ) (inst : Dcluster) (s1 : σ)
    (hget : r.Get req.NamespacedName s = (Except.ok inst, s1))
    (hok : (runAction r (selectedAction api inst) inst s1).1 = none) :
    (Reconcile api r req s).err = none ∧
    (selectedAction api inst = Action.refresh →
      (Reconcile api r req s).result = ⟨false, 30 * Second⟩) ∧
    (selectedAction api inst ≠ Action.refresh →
      (Reconcile api r req s).result = Result.zero) := by
  obtain ⟨e, i1, s2, pre, rsn, text, hrun, -, -, -, -, hsucc⟩ :=
    Reconcile_found api r req s inst s1 hget
  rw [hrun] at hok
  obtain ⟨h1, h2, -⟩ := hsucc hok
  refine ⟨h1, ?_, ?_⟩
  · intro h; rw [h2, if_pos h]
  · intro h; rw [h2, if_neg h]

/-- Witness of C7, amended: a refresh that succeeds. -/
theorem reconcile_success_result_witness :
    (Reconcile (specAPI "g") (fixedReconciler (Except.ok submittedRecord) allSucceed)
      sampleRequest ()).result = ⟨false, 30 * Second⟩ :=
  (reconcile_success_result (specAPI "g")
    (fixedReconciler (Except.ok submittedRecord) allSucceed) sampleRequest ()
    submittedRecord () rfl rfl).2.1 (by decide)

/-- The requeue result differs from `ctrl.Result{}`. -/
theorem requeue_ne_zero : (⟨false, 30 * Second⟩ : Result) ≠ Result.zero := by
  decide

/-- One second is not the zero duration. -/
theorem Second_ne_zero : Second ≠ 0 := by
  decide

/-- C8. `Reconcile` returns `RequeueAfter` of 30 seconds with a nil error
exactly when refresh was invoked and succeeded; every other outcome returns
`ctrl.Result{}`, in particular every invocation that ran the teardown; and a
result with a requeue delay is never returned without refresh having run. -/
theorem reconcile_requeue_iff {σ : Type} (api : DclusterAPI)
    (r : DclusterReconciler σ) (req : Request) (s : σ) :
    (((Reconcile api r req s).result = ⟨false, 30 * Second⟩ ∧
        (Reconcile api r req s).err = none) ↔
      ∃ inst s1, r.Get req.NamespacedName s = (Except.ok inst, s1) ∧
        Action.refresh ∈ actionsOf (Reconcile api r req s).effects ∧
        (r.refresh inst s1).1 = none) ∧
    ((¬ ∃ inst s1, r.Get req.NamespacedName s = (Except.ok inst, s1) ∧
        Action.refresh ∈ actionsOf (Reconcile api r req s).effects ∧
        (r.refresh inst s1).1 = none) →
      (Reconcile api r req s).result = Result.zero) ∧
    (Action.handleFinalizer ∈ actionsOf (Reconcile api r req s).effects →
      (Reconcile api r req s).result = Result.zero) ∧
    ((Reconcile api r req s).result.RequeueAfter ≠ 0 →
      Action.refresh ∈ actionsOf (Reconcile api r req s).effects) := by
  rcases hget : r.Get req.NamespacedName s with ⟨e | inst, s1⟩
  · rw [Reconcile_get_error api r req s e s1 hget]
    simp [actionsOf, Result.zero, Second_ne_zero]
  · obtain ⟨e, i1, s2, pre, rsn, text, hrun, -, hact, -, herr, hok⟩ :=
      Reconcile_found api r req s inst s1 hget
    rw [hact]
    simp only [List.mem_singleton]
    by_cases hsel : selectedAction api inst = Action.refresh
    · rw [hsel] at hrun
      simp only [runAction] at hrun
      cases e with
      | none =>
        obtain ⟨h1, h2, -⟩ := hok rfl
        rw [if_pos hsel] at h2
        have hP : ∃ i t, (Except.ok inst, s1) = ((Except.ok i, t) : Except Error Dcluster × σ) ∧
            Action.refresh = selectedAction api inst ∧ (r.refresh i t).1 = none :=
          ⟨inst, s1, rfl, hsel.symm, by rw [hrun]⟩
        refine ⟨⟨fun _ => hP, fun _ => ⟨h2, h1⟩⟩, fun h => absurd hP h, ?_, fun _ => hsel.symm⟩
        intro h
        rw [hsel] at h
        exact absurd h (by decide)
      | some err =>
        obtain ⟨h1, h2, -⟩ := herr err rfl
        refine ⟨⟨?_, ?_⟩, fun _ => h2, fun _ => h2, ?_⟩
        · rintro ⟨h, -⟩
          rw [h2] at h
          exact absurd h.symm requeue_ne_zero
        · rintro ⟨i, t, hit, -, hr⟩
          have hi : inst = i := by injection hit with a b; injection a
          have ht : s1 = t := by injection hit
          rw [← hi, ← ht, hrun] at hr
          exact absurd hr (by simp)
        · intro h
          rw [h2] at h
          exact absurd rfl h
    · have hres : (Reconcile api r req s).result = Result.zero := by
        cases e with
        | none =>
          obtain ⟨-, h2, -⟩ := hok rfl
          rw [h2, if_neg hsel]
        | some err => exact (herr err rfl).2.1
      refine ⟨⟨?_, ?_⟩, fun _ => hres, fun _ => hres, ?_⟩
      · rintro ⟨h, -⟩
        rw [hres] at h
        exact absurd h.symm requeue_ne_zero
      · rintro ⟨i, t, -, h, -⟩
        exact absurd h.symm hsel
      · intro h
        rw [hres] at h
        exact absurd rfl h

/-- C9, as the claim states it, fails: when the fetch fails with an error
other than NotFound the invocation fails with that error and emits no event. -/
theorem reconcile_fetch_failure_no_event :
    (Reconcile (specAPI "g")
      (fixedReconciler (Except.error ⟨false, "connection refused"⟩) allSucceed)
      sampleRequest ()).err = some ⟨false, "connection refused"⟩ ∧
    eventsOf (Reconcile (specAPI "g")
      (fixedReconciler (Except.error ⟨false, "connection refused"⟩) allSucceed)
      sampleRequest ()).effects = [] := by
  constructor <;> decide

/-- C9, amended. An invocation that selected an action emits exactly one
event, on the record as the action left it: a Normal event when the action
succeeded, a Warning event whose message ends with the error's text when it
failed. An invocation whose fetch failed emits no event. -/
theorem reconcile_events {σ : Type} (api : DclusterAPI)
    (r : DclusterReconciler σ) (req : Request) (s : σ) :
    (∀ inst s1, r.Get req.NamespacedName s = (Except.ok inst, s1) →
      (∀ i1 s2, runAction r (selectedAction api inst) inst s1 = (none, i1, s2) →
        (Reconcile api r req s).err = none ∧
        ∃ rsn text, eventsOf (Reconcile api r req s).effects =
          [(i1, EventTypeNormal, rsn, text)]) ∧
      (∀ err i1 s2, runAction r (selectedAction api inst) inst s1 = (some err, i1, s2) →
        (Reconcile api r req s).err ≠ none ∧
        ∃ rsn text, eventsOf (Reconcile api r req s).effects =
          [(i1, EventTypeWarning, rsn, text ++ err.msg)])) ∧
    (∀ e s1, r.Get req.NamespacedName s = (Except.error e, s1) →
      eventsOf (Reconcile api r req s).effects = []) := by
  refine ⟨?_, ?_⟩
  · intro inst s1 hget
    obtain ⟨e, j1, t2, pre, rsn, text, hrun, -, -, -, herr, hok⟩ :=
      Reconcile_found api r req s inst s1 hget
    refine ⟨?_, ?_⟩
    · intro i1 s2 h
      rw [hrun] at h
      obtain ⟨h1, -, rsn1, text1, h3⟩ := hok (congrArg Prod.fst h)
      have hi : j1 = i1 := congrArg (fun x => x.2.1) h
      exact ⟨h1, rsn1, text1, by rw [h3, hi]⟩
    · intro err i1 s2 h
      rw [hrun] at h
      obtain ⟨h1, -, h3⟩ := herr err (congrArg Prod.fst h)
      have hi : j1 = i1 := congrArg (fun x => x.2.1) h
      exact ⟨by simp [h1], rsn, text, by rw [h3, hi]⟩
  · intro e s1 hget
    rw [Reconcile_get_error api r req s e s1 hget]
    rfl

/-- Witness of C9, amended: a guard attach that fails with `boom`. -/
theorem reconcile_events_witness :
    ∃ rsn text, eventsOf (Reconcile (specAPI "g")
      (fixedReconciler (Except.ok freshRecord) allFail) sampleRequest ()).effects =
        [(freshRecord, EventTypeWarning, rsn, text ++ "boom")] :=
  ((((reconcile_events (specAPI "g") (fixedReconciler (Except.ok freshRecord) allFail)
    sampleRequest ()).1 freshRecord () rfl).2) ⟨false, "boom"⟩ freshRecord () rfl).2

/-- C10. The index function is registered by `SetupWithManager` under the key
`.status.cluster_info.cluster_id`; it returns the nil slice for a nil record, a
nil status or a nil cluster info, otherwise the one-element slice holding the
cluster id, whatever that id is, the empty string included; so never more than
one value. -/
theorem dclusterIndexFunc_spec :
    (∀ fi cs ce, (SetupWithManager ⟨fi, cs, none, ce⟩).2.fieldIndexes =
      fi ++ [("Dcluster", ".status.cluster_info.cluster_id", dclusterIndexFunc)]) ∧
    dclusterIndexFunc none = none ∧
    (∀ ns n dt fs, dclusterIndexFunc (some ⟨ns, n, dt, fs, none⟩) = none) ∧
    (∀ ns n dt fs, dclusterIndexFunc (some ⟨ns, n, dt, fs, some ⟨none⟩⟩) = none) ∧
    (∀ ns n dt fs id st,
      dclusterIndexFunc (some ⟨ns, n, dt, fs, some ⟨some ⟨id, st⟩⟩⟩) = some [id]) ∧
    (∀ ns n dt fs st,
      dclusterIndexFunc (some ⟨ns, n, dt, fs, some ⟨some ⟨"", st⟩⟩⟩) = some [""]) ∧
    (∀ d, sliceLen (dclusterIndexFunc d) ≤ 1) := by
  refine ⟨?_, rfl, fun _ _ _ _ => rfl, fun _ _ _ _ => rfl, fun _ _ _ _ _ _ => rfl,
    fun _ _ _ _ _ => rfl, ?_⟩
  · intro fi cs ce
    cases ce <;> rfl
  · intro d
    rcases d with _ | ⟨ns, n, dt, fs, _ | ⟨_ | info⟩⟩ <;> simp [dclusterIndexFunc, sliceLen]

/-! ## The engine over the world of the specification -/

theorem HasFinalizer_removeGuard (guard : String) (d : Dcluster) :
    HasFinalizer (removeGuard guard d) guard = false := by
  simp [HasFinalizer, removeGuard, List.mem_filter]

theorem storeGet_state (o : Replies) (key : NamespacedName) (w : World) :
    (storeGet o key w).2 = w := by
  unfold storeGet
  split
  · rfl
  · split
    · rfl
    · split <;> rfl

theorem storeGet_ok (o : Replies) (key : NamespacedName) (w : World) (inst : Dcluster)
    (s1 : World) (h : storeGet o key w = (Except.ok inst, s1)) :
    w.store = some inst ∧ s1 = w := by
  have hs := storeGet_state o key w
  rw [h] at hs
  refine ⟨?_, hs⟩
  unfold storeGet at h
  split at h
  · simp at h
  · split at h
    · simp at h
    · rename_i d hd
      split at h
      · simp only [Prod.mk.injEq, Except.ok.injEq] at h
        rw [hd, h.1]
      · simp at h

/-- The store after a store update: unchanged when refused, else the record
written, or nothing when that record is being deleted and carries no guard. -/
theorem storeUpdate_store (guard : String) (o : Replies) (d : Dcluster) (w : World) :
    (storeUpdate guard o d w).2.store =
      match o.update with
      | some _ => w.store
      | none => if IsBeingDeleted d && !HasFinalizer d guard then none else some d := by
  unfold storeUpdate
  split <;> simp_all

/-- What the teardown of the specification leaves, for a record with an
external id: by the answers to `delete` and to the store update. -/
theorem specHandleFinalizer_cases (guard : String) (o : Replies) (d : Dcluster)
    (w : World) (id : String) (hid : externalID d = some id) :
    (∃ e, o.delete = DeleteReply.failed e ∧
      specHandleFinalizer guard o d w =
        (some e, d, ⟨w.store, w.history ++ [Interaction.delete id o.delete]⟩)) ∨
    (o.delete.confirmed = true ∧ ∃ e, o.update = some e ∧
      specHandleFinalizer guard o d w =
        (some e, removeGuard guard d, ⟨w.store, w.history ++
          [Interaction.delete id o.delete, Interaction.update (removeGuard guard d) (some e)]⟩)) ∨
    (o.delete.confirmed = true ∧ o.update = none ∧
      specHandleFinalizer guard o d w =
        (none, removeGuard guard d,
          ⟨if IsBeingDeleted (removeGuard guard d) && !HasFinalizer (removeGuard guard d) guard
            then none else some (removeGuard guard d),
           w.history ++
            [Interaction.delete id o.delete, Interaction.update (removeGuard guard d) none]⟩)) := by
  rcases hdl : o.delete with _ | _ | e
  · rcases hu : o.update with _ | e
    · right; right
      simp [specHandleFinalizer, hid, hdl, hu, storeUpdate, DeleteReply.confirmed]
    · right; left
      simp [specHandleFinalizer, hid, hdl, hu, storeUpdate, DeleteReply.confirmed]
  · rcases hu : o.update with _ | e
    · right; right
      simp [specHandleFinalizer, hid, hdl, hu, storeUpdate, DeleteReply.confirmed]
    · right; left
      simp [specHandleFinalizer, hid, hdl, hu, storeUpdate, DeleteReply.confirmed]
  · left
    exact ⟨e, rfl, by simp [specHandleFinalizer, hid, hdl]⟩

/-- An invocation over the world of the specification either fetched nothing
and left the world alone, or fetched the store's record. -/
theorem specReconcile_fetch (guard : String) (o : Replies) (req : Request) (w : World) :
    ((Reconcile (specAPI guard) (specReconciler guard o) req w).state = w ∧
      actionsOf (Reconcile (specAPI guard) (specReconciler guard o) req w).effects = []) ∨
    (∃ inst, w.store = some inst ∧
      (specReconciler guard o).Get req.NamespacedName w = (Except.ok inst, w)) := by
  rcases hget : (specReconciler guard o).Get req.NamespacedName w with ⟨e | inst, s1⟩
  · left
    have hs : s1 = w := by
      have := storeGet_state o req.NamespacedName w
      simp only [specReconciler] at hget
      rw [hget] at this
      exact this
    rw [Reconcile_get_error (specAPI guard) (specReconciler guard o) req w e s1 hget]
    exact ⟨hs, rfl⟩
  · right
    obtain ⟨h1, h2⟩ := storeGet_ok o req.NamespacedName w inst s1 hget
    exact ⟨inst, h1, by rw [h2]⟩

/-- C2. For a stored record with an external id, deletion requested and the
guard attached: if the guard is gone after an invocation of `Reconcile`, the
external delete was called in that invocation and answered success or
NotFound before the store update that removed the guard; when the teardown
fails the stored record is untouched, guard included, and `Reconcile` returns
the teardown's error (wrapped by `fmt.Errorf`). -/
theorem teardown_precedes_guard_removal (guard : String) (o : Replies) (req : Request)
    (w : World) (d : Dcluster) (id : String)
    (hstore : w.store = some d) (hid : externalID d = some id)
    (hdel : IsBeingDeleted d = true) (hguard : HasFinalizer d guard = true) :
    ((Reconcile (specAPI guard) (specReconciler guard o) req w).state.guarded guard = false →
      o.delete.confirmed = true ∧
      (Reconcile (specAPI guard) (specReconciler guard o) req w).state.history =
        w.history ++
          [Interaction.delete id o.delete, Interaction.update (removeGuard guard d) none]) ∧
    (∀ e, Action.handleFinalizer ∈
        actionsOf (Reconcile (specAPI guard) (specReconciler guard o) req w).effects →
      (specHandleFinalizer guard o d w).1 = some e →
      (Reconcile (specAPI guard) (specReconciler guard o) req w).state.store = some d ∧
      (Reconcile (specAPI guard) (specReconciler guard o) req w).err =
        some (Errorf "error when handling finalizer: " e)) ∧
    (∀ e, o.delete = DeleteReply.failed e →
      (Reconcile (specAPI guard) (specReconciler guard o) req w).state.store = some d) := by
  have hw : w.guarded guard = true := by simp [World.guarded, hstore, hguard]
  rcases specReconcile_fetch guard o req w with ⟨hst, hact⟩ | ⟨inst, hi, hget⟩
  · rw [hst, hact]
    refine ⟨fun h => ?_, fun e h => ?_, fun e _ => hstore⟩
    · rw [hw] at h; exact absurd h (by decide)
    · simp at h
  · have hinst : inst = d := by
      rw [hstore] at hi
      exact (Option.some.inj hi).symm
    subst hinst
    have hR := Reconcile_handleFinalizer (specAPI guard) (specReconciler guard o) req w inst w
      hget hdel
    have hhf : (specReconciler guard o).handleFinalizer inst w =
        specHandleFinalizer guard o inst w := rfl
    rw [hhf] at hR
    rcases specHandleFinalizer_cases guard o inst w id hid with
      ⟨e, hd, heq⟩ | ⟨hc, e, hu, heq⟩ | ⟨hc, hu, heq⟩
    · rw [heq] at hR
      rw [hR, heq]
      refine ⟨fun h => ?_, fun e1 _ h1 => ?_, fun _ _ => hstore⟩
      · simp [World.guarded, hstore, hguard] at h
      · simp only [Option.some.injEq] at h1
        rw [h1]
        exact ⟨hstore, rfl⟩
    · rw [heq] at hR
      rw [hR, heq]
      refine ⟨fun h => ?_, fun e1 _ h1 => ?_, fun _ _ => hstore⟩
      · simp [World.guarded, hstore, hguard] at h
      · simp only [Option.some.injEq] at h1
        rw [h1]
        exact ⟨hstore, rfl⟩
    · rw [heq] at hR
      rw [hR, heq]
      refine ⟨fun _ => ⟨hc, rfl⟩, fun e1 _ h1 => ?_, fun e1 h1 => ?_⟩
      · simp at h1
      · rw [h1] at hc
        simp [DeleteReply.confirmed] at hc

/-- Witness of C2: the external delete fails, the stored record keeps its
guard and the error is returned; the delete succeeds, the guard is gone and
the delete precedes the update in the history. -/
theorem teardown_precedes_guard_removal_witness :
    ((Reconcile (specAPI "g") (specReconciler "g" deleteFails) sampleRequest
        deletingWorld).state.store = some deletingRecord ∧
      (Reconcile (specAPI "g") (specReconciler "g" deleteFails) sampleRequest
        deletingWorld).err =
          some (Errorf "error when handling finalizer: " ⟨false, "throttled"⟩)) ∧
    (okReplies.delete.confirmed = true ∧
      (Reconcile (specAPI "g") (specReconciler "g" okReplies) sampleRequest
        deletingWorld).state.history =
        deletingWorld.history ++ [Interaction.delete "id-1" okReplies.delete,
          Interaction.update (removeGuard "g" deletingRecord) none]) :=
  ⟨(teardown_precedes_guard_removal "g" deleteFails sampleRequest deletingWorld
      deletingRecord "id-1" rfl rfl rfl (by decide)).2.1 ⟨false, "throttled"⟩
      (by decide) rfl,
   (teardown_precedes_guard_removal "g" okReplies sampleRequest deletingWorld
      deletingRecord "id-1" rfl rfl rfl (by decide)).1 (by decide)⟩

/-! ## Sequences of invocations -/

/-- Every call of an action in a trace is the call of the selected action on
the fetched record. -/
theorem Reconcile_calls {σ : Type} (api : DclusterAPI) (r : DclusterReconciler σ)
    (req : Request) (s : σ) (a : Action) (x : Dcluster)
    (h : Effect.call a x ∈ (Reconcile api r req s).effects) :
    ∃ s1, r.Get req.NamespacedName s = (Except.ok x, s1) ∧ a = selectedAction api x := by
  rcases hget : r.Get req.NamespacedName s with ⟨e | inst, s1⟩
  · rw [Reconcile_get_error api r req s e s1 hget] at h
    simp at h
  · refine ⟨s1, ?_⟩
    cases hd : api.IsBeingDeleted inst
    · cases hf : api.HasFinalizer inst api.DclusterFinalizerName
      · rw [Reconcile_addFinalizer api r req s inst s1 hget hd hf] at h
        rcases ha : r.addFinalizer inst s1 with ⟨_ | e, i1, s2⟩ <;>
          simp [ha] at h <;> simp [h, selectedAction, hd, hf]
      · cases hs : api.IsSubmitted inst
        · rw [Reconcile_submit api r req s inst s1 hget hd hf hs] at h
          rcases ha : r.submit inst s1 with ⟨_ | e, i1, s2⟩ <;>
            simp [ha] at h <;> simp [h, selectedAction, hd, hf, hs]
        · rw [Reconcile_refresh api r req s inst s1 hget hd hf hs] at h
          rcases ha : r.refresh inst s1 with ⟨_ | e, i1, s2⟩ <;>
            simp [ha] at h <;> simp [h, selectedAction, hd, hf, hs]
    · rw [Reconcile_handleFinalizer api r req s inst s1 hget hd] at h
      rcases ha : r.handleFinalizer inst s1 with ⟨_ | e, i1, s2⟩ <;>
        simp [ha] at h <;> simp [h, selectedAction, hd]

/-- The teardown of the specification never attaches the guard. -/
theorem specHandleFinalizer_guarded (guard : String) (o : Replies) (d : Dcluster)
    (w : World) (h : (specHandleFinalizer guard o d w).2.2.guarded guard = true) :
    w.guarded guard = true := by
  have hu : ∀ w1 : World, w1.store = w.store →
      (storeUpdate guard o (removeGuard guard d) w1).2.guarded guard = true →
      w.guarded guard = true := by
    intro w1 hw1 hg
    have hs := storeUpdate_store guard o (removeGuard guard d) w1
    rcases ho : o.update with _ | e
    · rw [ho] at hs
      simp only at hs
      unfold World.guarded at hg
      rw [hs] at hg
      by_cases hc : (IsBeingDeleted (removeGuard guard d) &&
          !HasFinalizer (removeGuard guard d) guard) = true
      · rw [if_pos hc] at hg
        simp at hg
      · rw [if_neg hc] at hg
        simp [HasFinalizer_removeGuard] at hg
    · rw [ho] at hs
      simp only at hs
      unfold World.guarded at hg ⊢
      rw [hs, hw1] at hg
      exact hg
  unfold specHandleFinalizer at h
  split at h
  · exact hu w rfl h
  · rename_i id hid
    split at h
    · exact h
    · exact hu ⟨w.store, w.history ++ [Interaction.delete id o.delete]⟩ rfl h
    · exact hu ⟨w.store, w.history ++ [Interaction.delete id o.delete]⟩ rfl h

/-- A guard found in the store after an invocation was there before it, or
that invocation ran the guard attach. -/
theorem specReconcile_guard_origin (guard : String) (o : Replies) (req : Request) (w : World)
    (h : (Reconcile (specAPI guard) (specReconciler guard o) req w).state.guarded guard = true) :
    w.guarded guard = true ∨
    Action.addFinalizer ∈
      actionsOf (Reconcile (specAPI guard) (specReconciler guard o) req w).effects := by
  rcases specReconcile_fetch guard o req w with ⟨hst, -⟩ | ⟨inst, hi, hget⟩
  · left; rw [hst] at h; exact h
  · obtain ⟨e, i1, s2, pre, rsn, text, hrun, hst, hact, -, -, -⟩ :=
      Reconcile_found (specAPI guard) (specReconciler guard o) req w inst w hget
    rw [hact]
    cases hd : IsBeingDeleted inst
    · cases hf : HasFinalizer inst guard
      · right
        simp [selectedAction, specAPI, hd, hf]
      · left
        simp [World.guarded, hi, hf]
    · left
      have hsel : selectedAction (specAPI guard) inst = Action.handleFinalizer := by
        simp [selectedAction, specAPI, hd]
      rw [hsel] at hrun
      have hrun1 : specHandleFinalizer guard o inst w = (e, i1, s2) := hrun
      apply specHandleFinalizer_guarded guard o inst w
      rw [hrun1, ← hst]
      exact h

/-- An invocation that runs submit found the guard in the store. -/
theorem specReconcile_submit_guarded (guard : String) (o : Replies) (req : Request) (w : World)
    (h : Action.submit ∈
      actionsOf (Reconcile (specAPI guard) (specReconciler guard o) req w).effects) :
    w.guarded guard = true := by
  rcases specReconcile_fetch guard o req w with ⟨-, hact⟩ | ⟨inst, hi, hget⟩
  · rw [hact] at h; simp at h
  · obtain ⟨e, i1, s2, pre, rsn, text, -, -, hact, -, -, -⟩ :=
      Reconcile_found (specAPI guard) (specReconciler guard o) req w inst w hget
    rw [hact] at h
    simp only [List.mem_singleton] at h
    cases hd : IsBeingDeleted inst <;> cases hf : HasFinalizer inst guard <;>
      simp [selectedAction, specAPI, hd, hf] at h
    simp [World.guarded, hi, hf]

/-- A deletion request never attaches the guard. -/
theorem requestDeletion_guarded (guard : String) (ts : Nat) (w : World)
    (h : (requestDeletion guard ts w).guarded guard = true) : w.guarded guard = true := by
  unfold requestDeletion at h
  split at h
  · exact h
  · rename_i d hd
    split at h
    · rename_i hf
      simp [World.guarded, hd, hf]
    · simp [World.guarded] at h

theorem run_reconcile (guard : String) (w : World) (req : Request) (o : Replies)
    (rest : List Step) :
    run guard w (Step.reconcile req o :: rest) =
      ((Reconcile (specAPI guard) (specReconciler guard o) req w).effects ::
        (run guard (Reconcile (specAPI guard) (specReconciler guard o) req w).state rest).1,
       (run guard (Reconcile (specAPI guard) (specReconciler guard o) req w).state rest).2) :=
  rfl

theorem run_requestDeletion (guard : String) (w : World) (ts : Nat) (rest : List Step) :
    run guard w (Step.requestDeletion ts :: rest) =
      run guard (requestDeletion guard ts w) rest :=
  rfl

/-- Every trace of a run is the trace of one invocation of `Reconcile`. -/
theorem run_traces (guard : String) (steps : List Step) :
    ∀ (w : World) (t : List Effect), t ∈ (run guard w steps).1 →
      ∃ o req w1, t = (Reconcile (specAPI guard) (specReconciler guard o) req w1).effects := by
  induction steps with
  | nil =>
    intro w t h
    simp [run] at h
  | cons st rest ih =>
    intro w t h
    cases st with
    | reconcile req o =>
      rw [run_reconcile] at h
      rcases List.mem_cons.mp h with h1 | h1
      · exact ⟨o, req, w, h1⟩
      · exact ih _ t h1
    | requestDeletion ts =>
      rw [run_requestDeletion] at h
      exact ih _ t h

/-- In a run, an invocation that runs submit started from a guarded store or
comes after an invocation that ran the guard attach. -/
theorem run_submit_origin (guard : String) (steps : List Step) :
    ∀ (w : World) (j : Nat) (t : List Effect), (run guard w steps).1[j]? = some t →
      Action.submit ∈ actionsOf t →
      w.guarded guard = true ∨
      ∃ i u, i < j ∧ (run guard w steps).1[i]? = some u ∧ Action.addFinalizer ∈ actionsOf u := by
  induction steps with
  | nil =>
    intro w j t h
    simp [run] at h
  | cons st rest ih =>
    intro w j t h hsub
    cases st with
    | reconcile req o =>
      rw [run_reconcile] at h ⊢
      cases j with
      | zero =>
        simp only [List.getElem?_cons_zero, Option.some.injEq] at h
        rw [← h] at hsub
        exact Or.inl (specReconcile_submit_guarded guard o req w hsub)
      | succ j =>
        simp only [List.getElem?_cons_succ] at h
        rcases ih _ j t h hsub with hg | ⟨i, u, hij, hu, hadd⟩
        · rcases specReconcile_guard_origin guard o req w hg with hw | hadd
          · exact Or.inl hw
          · exact Or.inr ⟨0, _, Nat.succ_pos j, by simp, hadd⟩
        · exact Or.inr ⟨i + 1, u, Nat.succ_lt_succ hij, by simpa using hu, hadd⟩
    | requestDeletion ts =>
      rw [run_requestDeletion] at h ⊢
      rcases ih _ j t h hsub with hg | hex
      · exact Or.inl (requestDeletion_guarded guard ts w hg)
      · exact Or.inr hex

/-- C4. In every sequence of invocations of `Reconcile` and deletion requests
on one identity that starts from a store without the guard, an invocation that
runs submit comes after an earlier invocation that ran the guard attach;
submit is only ever called on a fetched record that carries the finalizer; and
an invocation that runs the guard attach runs neither submit nor refresh. -/
theorem guard_precedes_create (guard : String) (w : World) (steps : List Step)
    (h0 : w.guarded guard = false) (j : Nat) (t : List Effect)
    (hj : (run guard w steps).1[j]? = some t) :
    (Action.submit ∈ actionsOf t →
      ∃ i u, i < j ∧ (run guard w steps).1[i]? = some u ∧
        Action.addFinalizer ∈ actionsOf u) ∧
    (∀ inst, Effect.call Action.submit inst ∈ t → HasFinalizer inst guard = true) ∧
    (Action.addFinalizer ∈ actionsOf t →
      actionsOf t = [Action.addFinalizer] ∧
      Action.submit ∉ actionsOf t ∧ Action.refresh ∉ actionsOf t) := by
  obtain ⟨o, req, w1, ht⟩ := run_traces guard steps w t (List.getElem?_mem hj)
  refine ⟨fun hsub => ?_, fun inst hc => ?_, fun hadd => ?_⟩
  · rcases run_submit_origin guard steps w j t hj hsub with hg | hex
    · rw [h0] at hg
      exact absurd hg (by decide)
    · exact hex
  · rw [ht] at hc
    obtain ⟨s1, -, hsel⟩ :=
      Reconcile_calls (specAPI guard) (specReconciler guard o) req w1 Action.submit inst hc
    cases hd : IsBeingDeleted inst <;> cases hf : HasFinalizer inst guard <;>
      simp [selectedAction, specAPI, hd, hf] at hsel ⊢
  · rw [ht] at hadd ⊢
    rcases specReconcile_fetch guard o req w1 with ⟨-, hact⟩ | ⟨inst, -, hget⟩
    · rw [hact] at hadd
      simp at hadd
    · obtain ⟨e, i1, s2, pre, rsn, text, -, -, hact, -, -, -⟩ :=
        Reconcile_found (specAPI guard) (specReconciler guard o) req w1 inst w1 hget
      rw [hact] at hadd ⊢
      simp only [List.mem_singleton] at hadd
      rw [← hadd]
      simp

/-- Witness of C4: from a fresh record, the second invocation runs submit and
the first one ran the guard attach. -/
theorem guard_precedes_create_witness :
    freshWorld.guarded "g" = false ∧
    ∃ i u, i < 1 ∧ (run "g" freshWorld twoInvocations).1[i]? = some u ∧
      Action.addFinalizer ∈ actionsOf u :=
  ⟨by decide,
   (guard_precedes_create "g" freshWorld twoInvocations (by decide) 1
      (Reconcile (specAPI "g") (specReconciler "g" okReplies) sampleRequest
        ⟨some guardedRecord, [Interaction.update guardedRecord none]⟩).effects
      rfl).1 (by decide)⟩

/-- The scenario of section 8 of the specification runs as it says: guard
attach, submit, refresh, then after the deletion request the teardown, which
removes the record; the last invocation finds nothing and does nothing. -/
theorem lifecycle_actions :
    (run "g" freshWorld lifecycle).1.map actionsOf =
      [[Action.addFinalizer], [Action.submit], [Action.refresh],
        [Action.handleFinalizer], []] ∧
    (run "g" freshWorld lifecycle).2.store = none := by
  constructor <;> decide

end Controllers
